import Mathlib

/-!
Verification of the analytics pipeline of a social-media sentiment-analysis
repository.  The Python sources under `src/analyzers/` (`sentiment_model.py`,
`market_analyzer.py`, `keyword_model.py`) are shallowly embedded below:

* a pandas `DataFrame` becomes `DF`, an ordered list of named columns of
  `Value` cells (strings, rationals for numbers, rationals for parsed
  timestamps measured in days, and a missing marker `vNA`);
* Python `float` arithmetic is modelled exactly by `ℚ`; Python's `round`
  (banker's rounding) becomes `pyRound` built on `Int.floor`;
* the VADER compound scorer, the NLTK tokenizer and `pd.to_datetime` are
  external black boxes, so the embedded functions take them as parameters
  (`compound : String → ℚ`, `tokenize : String → List String`,
  `pt : Value → Option ℚ`);
* Python's stable `sorted` becomes Mathlib's `List.insertionSort`, which is
  stable in the same sense (equal keys keep their original relative order);
* in-place DataFrame mutation (`df[col] = ...`) is modelled by returning the
  updated table alongside the result.
-/

/-- A cell of the table: a string, a number, a parsed timestamp (in days), or
a missing value (`NaN`/`NaT`). -/
inductive Value where
  | vStr (s : String)
  | vNum (q : ℚ)
  | vTime (t : ℚ)
  | vNA
deriving DecidableEq

/-- A DataFrame: ordered named columns. -/
structure DF where
  cols : List (String × List Value)
deriving DecidableEq

/-- ASCII lower-casing of one character (column names and keywords in this
code base are ASCII, so this models Python's `str.lower`). -/
def lowerChar (c : Char) : Char :=
  if 65 ≤ c.toNat ∧ c.toNat ≤ 90 then Char.ofNat (c.toNat + 32) else c

/-- ASCII lower-casing of a string, modelling Python's `str.lower()`. -/
def lowerStr (s : String) : String :=
  ⟨s.data.map lowerChar⟩

/-- Does `needle` occur as a prefix of `hay`?  (Decidable, over char lists.) -/
def charPrefix : List Char → List Char → Bool
  | _, [] => true
  | [], _ :: _ => false
  | h :: t, n :: m => h == n && charPrefix t m

/-- Does `needle` occur as a contiguous substring of `hay`?  Models Python's
`needle in hay` on strings. -/
def hasSub : List Char → List Char → Bool
  | [], needle => needle.isEmpty
  | h :: t, needle => charPrefix (h :: t) needle || hasSub t needle

/-- Python's `str(value)`: identity on strings, `"nan"` for missing values.
The exact rendering of numbers and timestamps is irrelevant to every claim
(tables reaching these code paths hold strings there); any fixed rendering is
a faithful model. -/
def pyStr : Value → String
  | .vStr s => s
  | .vNum q => toString q.num
  | .vTime t => toString t.num
  | .vNA => "nan"

/-- Is the cell a Python `str`?  (`isinstance(text, str)`). -/
def Value.isStr : Value → Bool
  | .vStr _ => true
  | _ => false

/-- The column names of a table, in order (`df.columns`). -/
def colNames (df : DF) : List String :=
  df.cols.map Prod.fst

/-- Look a column up by name. -/
def getCol (df : DF) (c : String) : Option (List Value) :=
  (df.cols.find? (fun p => p.1 == c)).map Prod.snd

/-- Column lookup with `[]` as default (only used after a successful probe). -/
def getColD (df : DF) (c : String) : List Value :=
  (getCol df c).getD []

/-- `c in df.columns`. -/
def hasCol (df : DF) (c : String) : Bool :=
  df.cols.any (fun p => p.1 == c)

/-- `df[c] = vs`: replace the column in place if the name exists, otherwise
append a new column at the end — exactly pandas' column assignment. -/
def setCol (df : DF) (c : String) (vs : List Value) : DF :=
  if hasCol df c then
    ⟨df.cols.map (fun p => if p.1 == c then (c, vs) else p)⟩
  else
    ⟨df.cols ++ [(c, vs)]⟩

/-- `len(df)`: the number of rows (length of the first column; 0 for a
column-less table). -/
def nRows (df : DF) : Nat :=
  match df.cols with
  | [] => 0
  | (_, col) :: _ => col.length

/-- The text-column synonym list of `analyze_sentiment`
(`sentiment_model.py` line 9). -/
def textSyn6 : List String :=
  ["feedback", "review", "comment", "content", "text", "body"]

/-- The shorter synonym list used by `extract_keywords_analysis`,
`get_trending_topics` and `detect_emerging_issues` — note: no `"body"`. -/
def textSyn5 : List String :=
  ["feedback", "review", "comment", "content", "text"]

/-- `next((col for col in df.columns if col.lower() in syns), None)`. -/
def findTextCol (syns : List String) (df : DF) : Option String :=
  (colNames df).find? (fun c => syns.contains (lowerStr c))

/-- First column whose lower-cased name contains one of the given substrings
(`'date' in col.lower() or 'time' in col.lower() ...`). -/
def findDateCol (pats : List String) (df : DF) : Option String :=
  (colNames df).find? (fun c => pats.any (fun p => hasSub (lowerStr c).data p.data))

/-- Substring patterns of the date-column probe in `get_sentiment_trends`
(`sentiment_model.py` line 51). -/
def patsTrends : List String := ["date", "time", "created"]

/-- Substring patterns of the date-column probe in `analyze_market_sentiment`
(`market_analyzer.py` line 98) — note: no `"created"`. -/
def patsMarket : List String := ["date", "time"]

/-- Round a rational to the nearest integer, halves to even — the rounding
Python's built-in `round` uses. -/
def rndHalfEven (q : ℚ) : ℤ :=
  let f := ⌊q⌋
  let r := q - f
  if r < 1/2 then f
  else if r > 1/2 then f + 1
  else if f % 2 = 0 then f else f + 1

/-- Python's `round(x, n)` for `n` decimal digits. -/
def pyRound (n : ℕ) (x : ℚ) : ℚ :=
  (rndHalfEven (x * 10 ^ n) : ℚ) / 10 ^ n

/-- `get_sentiment` (`sentiment_model.py` lines 27–34): non-strings are
`Neutral`; otherwise the compound score is classified with the 0.05
thresholds.  `compound` is the black-box VADER scorer. -/
def get_sentiment (compound : String → ℚ) (v : Value) : String :=
  match v with
  | .vStr s =>
    let c := compound s
    if c ≥ 5/100 then "Positive"
    else if c ≤ -(5/100) then "Negative"
    else "Neutral"
  | _ => "Neutral"

/-- `get_score` (`sentiment_model.py` lines 36–38): non-strings score 0. -/
def get_score (compound : String → ℚ) (v : Value) : ℚ :=
  match v with
  | .vStr s => compound s
  | _ => 0

/-- The string-typed columns of the table, in table order — models
`df.select_dtypes(include=['object', 'string']).columns` (a pandas column is
object-typed exactly when it holds at least one string). -/
def strCols (df : DF) : List String :=
  (df.cols.filter (fun p => p.2.any Value.isStr)).map Prod.fst

/-- Mean string length of a column after `astype(str)`
(`df[x].astype(str).str.len().mean()`). -/
def meanStrLen (df : DF) (c : String) : ℚ :=
  let col := getColD df c
  ((col.map (fun v => ((pyStr v).length : ℚ))).sum) / col.length

/-- One step of Python's `max` scan: a later element replaces the current
best only on a strictly greater key. -/
def pyMaxStep (key : String → ℚ) (best y : String) : String :=
  if key y > key best then y else best

/-- Python's `max(xs, key=key)`: the first element attaining the maximal key
(later elements replace the current best only on a strictly greater key). -/
def pyMaxBy (key : String → ℚ) : List String → Option String
  | [] => none
  | x :: xs => some (xs.foldl (pyMaxStep key) x)

/-- The text-column resolution of `analyze_sentiment` (`sentiment_model.py`
lines 9–18): synonym probe first, then the longest-mean-string-length
fallback over string-typed columns. -/
def resolveTextCol (df : DF) : Option String :=
  match findTextCol textSyn6 df with
  | some c => some c
  | none => pyMaxBy (meanStrLen df) (strCols df)

/-- `analyze_sentiment` (`sentiment_model.py` lines 4–44).  If no text column
resolves (or the resolved name is the empty, hence falsy, string) the table
is returned unchanged; otherwise the `sentiment` column is assigned first and
the `sentiment_score` column second, each mapped over the (then-current)
text column — so a text column literally named `sentiment` is overwritten
before the scores are read from it, exactly as in the source. -/
def analyze_sentiment (compound : String → ℚ) (df : DF) : DF :=
  match resolveTextCol df with
  | none => df
  | some c =>
    if c = "" then df
    else
      let s1 := setCol df "sentiment"
        ((getColD df c).map (fun v => .vStr (get_sentiment compound v)))
      setCol s1 "sentiment_score"
        ((getColD s1 c).map (fun v => .vNum (get_score compound v)))

/-- Bucket granularity chosen by `get_sentiment_trends`. -/
inductive Freq where
  | daily
  | weekly
  | monthly
deriving DecidableEq

/-- `freq = 'D' if time_span.days < 60 else 'W' if time_span.days < 365 else 'M'`
(`sentiment_model.py` line 67).  `span` is the time span in days;
`Timedelta.days` is its floor. -/
def chooseFreq (span : ℚ) : Freq :=
  if ⌊span⌋ < 60 then .daily
  else if ⌊span⌋ < 365 then .weekly
  else .monthly

/-- Apply the black-box `pd.to_datetime(·, errors='coerce')` to one cell:
parseable values become timestamps, everything else `NaT`. -/
def parseV (pt : Value → Option ℚ) (v : Value) : Value :=
  match pt v with
  | some t => .vTime t
  | none => .vNA

/-- Extract the timestamp of a parsed cell. -/
def timeOf : Value → Option ℚ
  | .vTime t => some t
  | _ => none

/-- The parsed, non-missing timestamps of column `c` — the `temp_date`
values surviving `dropna`. -/
def cleanTimes (pt : Value → Option ℚ) (df : DF) (c : String) : List ℚ :=
  ((getColD df c).map (parseV pt)).filterMap timeOf

/-- Maximum of a list of rationals (0 for an empty list, never used there). -/
def listMax : List ℚ → ℚ
  | [] => 0
  | h :: t => t.foldl max h

/-- Minimum of a list of rationals (0 for an empty list, never used there). -/
def listMin : List ℚ → ℚ
  | [] => 0
  | h :: t => t.foldl min h

/-- `get_sentiment_trends` (`sentiment_model.py` lines 46–79).  Returns the
chosen bucket granularity (`none` when the function returns `{}` early)
together with the table as left behind: the source executes
`df['temp_date'] = pd.to_datetime(df[date_col], errors='coerce')`, adding a
column to the caller's table, before any further check.  The grouped and
pivoted time series built from the granularity is abstracted away — no claim
depends on it, only on the granularity choice and on the table mutation. -/
def get_sentiment_trends (pt : Value → Option ℚ) (df : DF) : Option Freq × DF :=
  match findDateCol patsTrends df with
  | none => (none, df)
  | some d =>
    if hasCol df "sentiment" then
      let df2 := setCol df "temp_date" ((getColD df d).map (parseV pt))
      let clean := cleanTimes pt df d
      if clean = [] then (none, df2)
      else (some (chooseFreq (listMax clean - listMin clean)), df2)
    else (none, df)

/-- The fixed-shape report of `analyze_market_sentiment`
(`market_analyzer.py` lines 14–24). -/
structure Insights where
  overall_sentiment : String
  sentiment_score : ℚ
  confidence : ℚ
  positive_ratio : ℚ
  negative_ratio : ℚ
  neutral_ratio : ℚ
  total_mentions : ℕ
  engagement_trend : String
  recommendations : List String
deriving DecidableEq

/-- `df['sentiment'].value_counts().get(lab, 0)`: occurrences of the string
`lab` in the column. -/
def countV (col : List Value) (lab : String) : ℕ :=
  col.countP (fun v => v == .vStr lab)

/-- Mean of the numeric cells of a column, skipping missing values as pandas
`mean` does; `none` models the `NaN` mean of an all-missing selection. -/
def numMean (vals : List Value) : Option ℚ :=
  let qs := vals.filterMap (fun v => match v with | .vNum q => some q | _ => none)
  if qs.isEmpty then none else some (qs.sum / qs.length)

/-- The engagement branch (`market_analyzer.py` lines 67–83): compare mean
likes of Positive rows against Negative rows, an undefined mean counting
as 0.  `rows` pairs each sentiment cell with its likes cell. -/
def engagementTrend (rows : List (Value × Value)) : String :=
  let pos := (numMean ((rows.filter (fun p => p.1 == .vStr "Positive")).map Prod.snd)).getD 0
  let neg := (numMean ((rows.filter (fun p => p.1 == .vStr "Negative")).map Prod.snd)).getD 0
  if pos > neg * (3/2) then "Positive content drives higher engagement"
  else if neg > pos * (3/2) then "Negative content drives higher engagement"
  else "Balanced engagement across sentiments"

/-- The recommendation cascade (`market_analyzer.py` lines 86–95), a function
of the three rounded ratios. -/
def baseRecs (pr nr ur : ℚ) : List String :=
  if pr > 60 then
    ["✅ Strong positive sentiment - maintain current strategy",
     "📈 Consider amplifying positive messaging"]
  else if nr > 40 then
    ["⚠️ High negative sentiment detected",
     "🔧 Immediate action recommended - investigate root causes",
     "💬 Increase customer engagement and support"]
  else if ur > 50 then
    ["📊 High neutral sentiment - opportunity to create stronger emotional connection",
     "🎯 Focus on creating more engaging content"]
  else []

/-- The note appended when sentiment improves over time. -/
def msgImproving : String := "📈 Sentiment is improving over time"

/-- The note appended when sentiment declines over time. -/
def msgDeclining : String := "📉 Sentiment is declining - requires attention"

/-- Row order on (timestamp, sentiment) pairs used to model
`df_clean.sort_values(date_col)`. -/
def timeLe (a b : ℚ × Value) : Prop := a.1 ≤ b.1

instance : DecidableRel timeLe := fun a b => inferInstanceAs (Decidable (a.1 ≤ b.1))

instance : IsTotal (ℚ × Value) timeLe := ⟨fun a b => le_total a.1 b.1⟩

instance : IsTrans (ℚ × Value) timeLe := ⟨fun _ _ _ h h2 => le_trans h h2⟩

/-- The rows surviving `dropna(subset=[date_col])`, as (timestamp,
sentiment-cell) pairs: the parsed date column zipped with the sentiment
column, unparsed rows dropped. -/
def cleanPairs (parsed : List Value) (sentCol : List Value) : List (ℚ × Value) :=
  (parsed.zip sentCol).filterMap
    (fun p => match timeOf p.1 with | some t => some (t, p.2) | none => none)

/-- `(half['sentiment'] == 'Positive').sum() / len(half)`. -/
def posFrac (l : List (ℚ × Value)) : ℚ :=
  ((l.countP (fun p => p.2 == .vStr "Positive")) : ℚ) / l.length

/-- The first-half/second-half temporal check (`market_analyzer.py` lines
98–122), given the parsed date column zipped with the sentiment column:
drop unparsed rows, sort by time, split at the floor midpoint and compare
Positive fractions.  Returns the appended note, if any. -/
def temporalRecs (parsed : List Value) (sentCol : List Value) : List String :=
  let clean := cleanPairs parsed sentCol
  if clean = [] then []
  else
    let sorted := clean.insertionSort timeLe
    let mid := sorted.length / 2
    let firstH := sorted.take mid
    let secondH := sorted.drop mid
    if 0 < firstH.length ∧ 0 < secondH.length then
      if posFrac secondH > posFrac firstH + 1/10 then [msgImproving]
      else if posFrac secondH < posFrac firstH - 1/10 then [msgDeclining]
      else []
    else []

/-- `analyze_market_sentiment` (`market_analyzer.py` lines 7–124).  Returns
the insights record together with the table as left behind: when a column
whose lowered name contains `date` or `time` is found, the source executes
`df[date_col] = pd.to_datetime(df[date_col], errors='coerce')`, overwriting
that column of the caller's table (the probe also matches the `sentiment`
column itself, whose name contains `time`).  The unused local variables
`avg_engagement` and `high_engagement_threshold` of the source have no
observable effect and are not modelled. -/
def analyze_market_sentiment (pt : Value → Option ℚ) (df : DF) : Insights × DF :=
  let total := nRows df
  let base : Insights :=
    ⟨"Neutral", 0, 0, 0, 0, 0, total, "Stable", []⟩
  if ¬ hasCol df "sentiment" then
    ({ base with recommendations := ["No sentiment data available"] }, df)
  else if total = 0 then (base, df)
  else
    let sentCol := getColD df "sentiment"
    let positive := countV sentCol "Positive"
    let negative := countV sentCol "Negative"
    let neutral := countV sentCol "Neutral"
    let pr := pyRound 1 ((positive : ℚ) / total * 100)
    let nr := pyRound 1 ((negative : ℚ) / total * 100)
    let ur := pyRound 1 ((neutral : ℚ) / total * 100)
    let score := ((positive : ℚ) - negative) / total
    let overall :=
      if score > 1/5 then "Very Positive"
      else if score > 1/20 then "Positive"
      else if score < -(1/5) then "Very Negative"
      else if score < -(1/20) then "Negative"
      else "Neutral"
    let conf :=
      if score > 1/5 then min 95 (70 + score * 50)
      else if score > 1/20 then 65
      else if score < -(1/5) then min 95 (70 + |score| * 50)
      else if score < -(1/20) then 65
      else 55
    let eng :=
      if hasCol df "likes" then engagementTrend (sentCol.zip (getColD df "likes"))
      else "Stable"
    match findDateCol patsMarket df with
    | none =>
      (⟨overall, pyRound 3 score, conf, pr, nr, ur, total, eng, baseRecs pr nr ur⟩, df)
    | some d =>
      let parsed := (getColD df d).map (parseV pt)
      (⟨overall, pyRound 3 score, conf, pr, nr, ur, total, eng,
        baseRecs pr nr ur ++ temporalRecs parsed sentCol⟩,
       setCol df d parsed)

/-- Per-keyword running counters of `get_trending_topics`
(`market_analyzer.py` lines 185–190). -/
structure TopicData where
  count : ℕ
  positive : ℕ
  negative : ℕ
  neutral : ℕ
deriving DecidableEq

/-- `^[a-z]+$`: one or more lowercase ASCII letters. -/
def allLowerAlpha (s : String) : Bool :=
  !s.data.isEmpty && s.data.all (fun c => 97 ≤ c.toNat ∧ c.toNat ≤ 122)

/-- The keyword filter of `get_trending_topics` (`market_analyzer.py` lines
178–181): fully lowercase-alphabetic, longer than 3, not a stopword. -/
def keepTopicWord (stop : List String) (w : String) : Bool :=
  allLowerAlpha w && w.length > 3 && !stop.contains w

/-- `trending_topics[keyword]['count'] += 1`, creating the entry (appended at
the end, as a Python dict does) if absent. -/
def bumpCount : List (String × TopicData) → String → List (String × TopicData)
  | [], k => [(k, ⟨1, 0, 0, 0⟩)]
  | (k2, d) :: t, k =>
    if k2 = k then (k2, { d with count := d.count + 1 }) :: t
    else (k2, d) :: bumpCount t k

/-- `trending_topics[keyword][key] += 1` for `key` one of the three
sentiment buckets. -/
def bumpSent (key : String) : List (String × TopicData) → String → List (String × TopicData)
  | [], k => [(k, ⟨0, 0, 0, 0⟩)]
  | (k2, d) :: t, k =>
    if k2 = k then
      (k2,
        if key = "positive" then { d with positive := d.positive + 1 }
        else if key = "negative" then { d with negative := d.negative + 1 }
        else { d with neutral := d.neutral + 1 }) :: t
    else (k2, d) :: bumpSent key t k

/-- `sentiment.lower()` as a dict key: `none` models the exception raised
when the cell is not a string (`AttributeError`) or its lowering is not one
of the three counter keys (`KeyError`). -/
def sentKey (sv : Value) : Option String :=
  match sv with
  | .vStr s =>
    let l := lowerStr s
    if l = "positive" ∨ l = "negative" ∨ l = "neutral" then some l else none
  | _ => none

/-- The per-row keyword loop (`market_analyzer.py` lines 183–193).  The
`count` bump of the current keyword happens first; if the sentiment bucket
lookup then raises, the enclosing `try` aborts the rest of the row while the
bump already made survives — exactly the source's partial-update behaviour. -/
def procKeywords (sv : Value) : List (String × TopicData) → List String → List (String × TopicData)
  | st, [] => st
  | st, k :: rest =>
    let st2 := bumpCount st k
    match sentKey sv with
    | none => st2
    | some key => procKeywords sv (bumpSent key st2 k) rest

/-- The full scan of `get_trending_topics` over the rows (text cell paired
with sentiment cell): missing text cells are skipped, the rest are lowered,
tokenized by the black-box `tokenize`, filtered and counted.  The resulting
association list is in first-seen keyword order, as a Python dict is. -/
def buildTopics (tokenize : String → List String) (stop : List String)
    (rows : List (Value × Value)) : List (String × TopicData) :=
  rows.foldl
    (fun st p =>
      match p.1 with
      | .vNA => st
      | v => procKeywords p.2 st ((tokenize (lowerStr (pyStr v))).filter (keepTopicWord stop)))
    []

/-- Comparison used to model `sorted(..., key=lambda x: x[1]['count'],
reverse=True)`: counts descending; as a non-strict order it makes the stable
`insertionSort` keep equal-count entries in first-seen order, exactly like
Python's stable `sorted`. -/
def topicGe (a b : String × TopicData) : Prop := b.2.count ≤ a.2.count

instance : DecidableRel topicGe := fun a b => inferInstanceAs (Decidable (b.2.count ≤ a.2.count))

instance : IsTotal (String × TopicData) topicGe := ⟨fun a b => le_total b.2.count a.2.count⟩

instance : IsTrans (String × TopicData) topicGe := ⟨fun _ _ _ h h2 => le_trans h2 h⟩

/-- One entry of the ranked-topic report (`market_analyzer.py` lines
206–217). -/
structure TopicEntry where
  topic : String
  mentions : ℕ
  positive_ratio : ℚ
  negative_ratio : ℚ
  neutral_ratio : ℚ
  dominant_sentiment : String
deriving DecidableEq

/-- `max([('Positive', p), ('Negative', n), ('Neutral', u)], key=...)[0]`:
Python's `max` keeps the earlier entry unless a later key is strictly
greater. -/
def dominantOf (p n u : ℕ) : String :=
  if n > p then (if u > n then "Neutral" else "Negative")
  else (if u > p then "Neutral" else "Positive")

/-- Build the report entry of one kept topic. -/
def topicEntryOf (k : String) (d : TopicData) : TopicEntry :=
  ⟨k, d.count,
    pyRound 1 ((d.positive : ℚ) / d.count * 100),
    pyRound 1 ((d.negative : ℚ) / d.count * 100),
    pyRound 1 ((d.neutral : ℚ) / d.count * 100),
    dominantOf d.positive d.negative d.neutral⟩

/-- The sentiment cells seen by `row.get('sentiment', 'Neutral')`: the
column if present, else the default string for every row. -/
def sentColOrDefault (df : DF) (n : ℕ) : List Value :=
  if hasCol df "sentiment" then getColD df "sentiment"
  else List.replicate n (.vStr "Neutral")

/-- `get_trending_topics` (`market_analyzer.py` lines 126–219): resolve the
text column against the five synonyms (no `body`), scan the rows, stably
sort by count descending, keep the top `top_n` and build report entries
(skipping zero counts, which never occur).  The NLTK download side effects
of the source have no bearing on the returned value.  The result dict is
modelled as a list in its insertion order. -/
def get_trending_topics (tokenize : String → List String) (stop : List String)
    (df : DF) (top_n : ℕ) : List TopicEntry :=
  match findTextCol textSyn5 df with
  | none => []
  | some c =>
    let col := getColD df c
    let topics := buildTopics tokenize stop (col.zip (sentColOrDefault df col.length))
    let sorted := topics.insertionSort topicGe
    ((sorted.take top_n).filter (fun p => p.2.count ≠ 0)).map (fun p => topicEntryOf p.1 p.2)

/-- One entry of the issue report (`market_analyzer.py` lines 267–272). -/
structure IssueEntry where
  issue : String
  mentions : ℕ
  severity : String
  percentage : ℚ
deriving DecidableEq

/-- ASCII `str.title()` for the single-word category names. -/
def titleStr (s : String) : String :=
  match s.data with
  | [] => ⟨[]⟩
  | c :: t => ⟨(if 97 ≤ c.toNat ∧ c.toNat ≤ 122 then Char.ofNat (c.toNat - 32) else c) :: t⟩

/-- The fixed issue categories and their keyword lists (`market_analyzer.py`
lines 244–250), in dict insertion order. -/
def issuePatterns : List (String × List String) :=
  [("quality", ["quality", "broken", "defect", "faulty", "poor"]),
   ("service", ["service", "support", "customer service", "help", "response"]),
   ("price", ["price", "expensive", "cost", "overpriced", "refund"]),
   ("delivery", ["delivery", "shipping", "late", "delayed", "never arrived"]),
   ("performance", ["slow", "lag", "crash", "bug", "error", "not working"])]

/-- Does a negative row's text mention one of the category keywords?
(`any(keyword in text for keyword in keywords)` after `str(val).lower()`;
missing cells are skipped). -/
def rowMatches (kws : List String) (v : Value) : Bool :=
  match v with
  | .vNA => false
  | v => kws.any (fun k => hasSub (lowerStr (pyStr v)).data k.data)

/-- The text cells of the Negative-labelled rows of the table, for the
resolved text column `c`. -/
def negTexts (df : DF) (c : String) : List Value :=
  (((getColD df c).zip (getColD df "sentiment")).filter
    (fun p => p.2 == .vStr "Negative")).map Prod.fst

/-- The severity tier of a count relative to the negative-row count `n`
(`market_analyzer.py` line 266). -/
def severityOf (count n : ℕ) : String :=
  if (count : ℚ) > n * (3/10) then "High"
  else if (count : ℚ) > n * (1/10) then "Medium"
  else "Low"

/-- Comparison modelling `issues.sort(key=lambda x: x['mentions'],
reverse=True)` (a stable sort in Python). -/
def issueGe (a b : IssueEntry) : Prop := b.mentions ≤ a.mentions

instance : DecidableRel issueGe := fun a b => inferInstanceAs (Decidable (b.mentions ≤ a.mentions))

instance : IsTotal IssueEntry issueGe := ⟨fun a b => le_total b.mentions a.mentions⟩

instance : IsTrans IssueEntry issueGe := ⟨fun _ _ _ h h2 => le_trans h2 h⟩

/-- `detect_emerging_issues` (`market_analyzer.py` lines 221–277): needs a
sentiment column and a text column from the five synonyms (no `body`);
counts, per fixed category, the negative rows mentioning one of its
keywords; keeps categories with a positive count, tagging severity and the
percentage of negative rows; sorts by mentions descending (stably) and
returns the top 5. -/
def detect_emerging_issues (df : DF) : List IssueEntry :=
  if ¬ hasCol df "sentiment" then []
  else
    match findTextCol textSyn5 df with
    | none => []
    | some c =>
      let neg := negTexts df c
      let n := neg.length
      if n = 0 then []
      else
        let issues := issuePatterns.filterMap
          (fun pat =>
            let count := neg.countP (rowMatches pat.2)
            if count = 0 then none
            else some (⟨titleStr pat.1, count, severityOf count n,
              pyRound 1 ((count : ℚ) / n * 100)⟩ : IssueEntry))
        (issues.insertionSort issueGe).take 5

/-- The keyword filter of `extract_keywords_analysis` (`keyword_model.py`
line 46): minimum length 3 (`len(word) > 2`) instead of 4. -/
def keepKeyword (stop : List String) (w : String) : Bool :=
  allLowerAlpha w && w.length > 2 && !stop.contains w

/-- Count multiset occurrences in first-seen key order, modelling
`collections.Counter` built from a list. -/
def counterOf (ws : List String) : List (String × ℕ) :=
  ws.foldl
    (fun st w =>
      if st.any (fun p => p.1 == w) then
        st.map (fun p => if p.1 == w then (p.1, p.2 + 1) else p)
      else st ++ [(w, 1)])
    []

/-- Comparison modelling `Counter.most_common` (a stable descending sort by
count). -/
def countGe (a b : String × ℕ) : Prop := b.2 ≤ a.2

instance : DecidableRel countGe := fun a b => inferInstanceAs (Decidable (b.2 ≤ a.2))

instance : IsTotal (String × ℕ) countGe := ⟨fun a b => le_total b.2 a.2⟩

instance : IsTrans (String × ℕ) countGe := ⟨fun _ _ _ h h2 => le_trans h2 h⟩

/-- Join strings with single spaces (`" ".join(...)`). -/
def joinSpace : List String → String
  | [] => ""
  | [s] => s
  | s :: t => s ++ " " ++ joinSpace t

/-- `extract_keywords_analysis` (`keyword_model.py` lines 18–52): resolve the
text column against the five synonyms (no `body`); join the non-missing
cells as strings, lowercase and tokenize (black box), filter, and return the
20 most common keywords with their counts. -/
def extract_keywords_analysis (tokenize : String → List String) (stop : List String)
    (df : DF) : List (String × ℕ) :=
  match findTextCol textSyn5 df with
  | none => []
  | some c =>
    let all_text := joinSpace ((getColD df c).filterMap
      (fun v => match v with | .vNA => none | v => some (pyStr v)))
    let kws := (tokenize (lowerStr all_text)).filter (keepKeyword stop)
    ((counterOf kws).insertionSort countGe).take 20

/-- `pd.to_datetime(·, errors='coerce')` on cells that already hold parsed
timestamps: the concrete parser instance used by witnesses and
counterexamples (string parsing never succeeds under it, matching the coerce
behaviour on non-date strings such as sentiment labels). -/
def ptTime (v : Value) : Option ℚ :=
  match v with
  | .vTime t => some t
  | _ => none

/-- Concrete tables and black-box instances used by witnesses and
counterexamples. -/
def dfW1 : DF := ⟨[("Review", [Value.vStr "good", Value.vNA])]⟩

/-- A concrete compound scorer for the C1 witness. -/
def compoundW : String → ℚ := fun s => if s = "good" then 1/2 else 0

/-- A table whose only string column is named `sentiment`, so the fallback
resolves it as the text column. -/
def dfX : DF := ⟨[("sentiment", [Value.vStr "x"])]⟩

/-- A concrete compound scorer that rates the text `x` positively but the
label string `Positive` negatively. -/
def compoundX : String → ℚ := fun s => if s = "x" then 1 else -1
/-- The sentiment column of the C2/C7 scenario: 10 rows, 6 Positive,
2 Negative, 2 Neutral. -/
def sentC2 : List Value :=
  [Value.vStr "Positive", Value.vStr "Positive", Value.vStr "Positive",
   Value.vStr "Positive", Value.vStr "Positive", Value.vStr "Positive",
   Value.vStr "Negative", Value.vStr "Negative",
   Value.vStr "Neutral", Value.vStr "Neutral"]

/-- The classified table of the C2 scenario. -/
def dfC2 : DF := ⟨[("sentiment", sentC2)]⟩

/-- A table whose only synonym-named text column is `body`. -/
def dfW4 : DF := ⟨[("body", [Value.vStr "broken"]), ("sentiment", [Value.vStr "Negative"])]⟩

/-- A degenerate concrete tokenizer (the whole text as one token), used to
instantiate black-box tokenizer parameters in witnesses. -/
def tokWhole : String → List String := fun s => [s]

/-- A table whose only genuinely time-like data column is `created_at`,
with sentiment improving from the first half to the second. -/
def dfC5 : DF :=
  ⟨[("created_at", [Value.vTime 0, Value.vTime 1, Value.vTime 2, Value.vTime 3]),
    ("sentiment",
     [Value.vStr "Negative", Value.vStr "Negative",
      Value.vStr "Positive", Value.vStr "Positive"])]⟩

/-- The same data with the time column named `date`, which the market
synthesizer's probe does match. -/
def dfW5 : DF :=
  ⟨[("date", [Value.vTime 0, Value.vTime 1, Value.vTime 2, Value.vTime 3]),
    ("sentiment",
     [Value.vStr "Negative", Value.vStr "Negative",
      Value.vStr "Positive", Value.vStr "Positive"])]⟩

/-- A classified table whose time span is exactly 60 days. -/
def dfW6 : DF :=
  ⟨[("date", [Value.vTime 0, Value.vTime 60]),
    ("sentiment", [Value.vStr "Neutral", Value.vStr "Neutral"])]⟩

/-- A 3-row classified table whose three rounded ratios are each 33.3,
summing to 99.9. -/
def dfW7 : DF :=
  ⟨[("sentiment", [Value.vStr "Positive", Value.vStr "Negative", Value.vStr "Neutral"])]⟩

/-- A classified table with one Negative row mentioning a quality keyword. -/
def dfW9 : DF :=
  ⟨[("text", [Value.vStr "broken thing", Value.vStr "ok"]),
    ("sentiment", [Value.vStr "Negative", Value.vStr "Positive"])]⟩

/-- A classified table with a `comment` text column, for the C8 witness. -/
def dfW8 : DF :=
  ⟨[("comment", [Value.vStr "alpha beta", Value.vStr "alpha"]),
    ("sentiment", [Value.vStr "Positive", Value.vStr "Negative"])]⟩

/-- A table with no synonym-named text column and two string columns of
different mean lengths. -/
def dfW10 : DF :=
  ⟨[("a", [Value.vNum 1]), ("u", [Value.vStr "hi"]), ("v", [Value.vStr "hey"])]⟩

section C1lemmas

theorem find?_replace_self (c : String) (vs : List Value) :
    ∀ (l : List (String × List Value)), l.any (fun p => p.1 == c) = true →
      (l.map (fun p => if p.1 == c then (c, vs) else p)).find? (fun p => p.1 == c) =
        some (c, vs) := by
  intro l h
  induction l with
  | nil => simp at h
  | cons hd t ih =>
    by_cases hc : hd.1 = c
    · simp [List.find?, hc]
    · have hc2 : (hd.1 == c) = false := by simp [hc]
      simp only [List.any_cons, hc2, Bool.false_or] at h
      simp only [List.map_cons, hc2, if_neg, Bool.false_eq_true, ite_false]
      rw [List.find?_cons_of_neg _ (by simp [hc2]), ih h]

theorem find?_replace_other (c m : String) (vs : List Value) (hm : m ≠ c) :
    ∀ (l : List (String × List Value)),
      (l.map (fun p => if p.1 == c then (c, vs) else p)).find? (fun p => p.1 == m) =
        l.find? (fun p => p.1 == m) := by
  intro l
  induction l with
  | nil => simp
  | cons hd t ih =>
    by_cases hc : hd.1 = c
    · have hcm0 : ¬ c = m := fun h => hm h.symm
      have hdm : (hd.1 == m) = false := by simp [hc, hcm0]
      have hcm : (c == m) = false := by simp [hcm0]
      simp only [List.map_cons, hc, if_pos, beq_self_eq_true, ite_true]
      rw [List.find?_cons_of_neg _ (by simp [hcm]), List.find?_cons_of_neg _ (by simp [hdm]), ih]
    · have hc2 : (hd.1 == c) = false := by simp [hc]
      simp only [List.map_cons, hc2, Bool.false_eq_true, ite_false]
      by_cases hdm : hd.1 = m
      · rw [List.find?_cons_of_pos _ (by simp [hdm]), List.find?_cons_of_pos _ (by simp [hdm])]
      · rw [List.find?_cons_of_neg _ (by simp [hdm]), List.find?_cons_of_neg _ (by simp [hdm]), ih]

theorem getCol_setCol_self (df : DF) (c : String) (vs : List Value) :
    getCol (setCol df c vs) c = some vs := by
  unfold getCol setCol
  by_cases h : hasCol df c = true
  · simp only [h, if_pos]
    rw [find?_replace_self c vs df.cols h]
    rfl
  · simp only [h, Bool.false_eq_true, ite_false]
    have hnone : df.cols.find? (fun p => p.1 == c) = none := by
      rw [List.find?_eq_none]
      intro x hx hpx
      exact h (List.any_eq_true.2 ⟨x, hx, hpx⟩)
    show ((df.cols ++ [(c, vs)]).find? (fun p => p.1 == c)).map Prod.snd = some vs
    rw [List.find?_append, hnone]
    simp

theorem getCol_setCol_other (df : DF) (c m : String) (vs : List Value) (hm : m ≠ c) :
    getCol (setCol df c vs) m = getCol df m := by
  unfold getCol setCol
  by_cases h : hasCol df c = true
  · simp only [h, if_pos]
    rw [find?_replace_other c m vs hm df.cols]
  · simp only [h, Bool.false_eq_true, ite_false]
    show ((df.cols ++ [(c, vs)]).find? (fun p => p.1 == m)).map Prod.snd = _
    rw [List.find?_append]
    have hcm : (c == m) = false := by
      simp only [beq_eq_false_iff_ne, ne_eq]
      exact fun hh => hm hh.symm
    have : ([((c, vs) : String × List Value)].find? (fun p => p.1 == m)) = none := by
      simp [List.find?, hcm]
    rw [this, Option.or_none]

end C1lemmas

/-- C1 (amended): whenever `analyze_sentiment` resolves a text column that is
not itself named `sentiment` (and not the falsy empty name), the appended
`sentiment` and `sentiment_score` columns are the row-wise label and compound
score of that column's cells, and for every cell the label agrees with the
0.05 and -0.05 thresholds on the score; non-string cells get `Neutral` and
score 0. -/
theorem c1_label_consistent_with_score (compound : String → ℚ) (df : DF) (c : String)
    (hres : resolveTextCol df = some c) (hne : c ≠ "") (hns : c ≠ "sentiment") :
    getCol (analyze_sentiment compound df) "sentiment" =
      some ((getColD df c).map (fun v => .vStr (get_sentiment compound v))) ∧
    getCol (analyze_sentiment compound df) "sentiment_score" =
      some ((getColD df c).map (fun v => .vNum (get_score compound v))) ∧
    ∀ v ∈ getColD df c,
      (get_sentiment compound v = "Positive" ↔ get_score compound v ≥ 5/100) ∧
      (get_sentiment compound v = "Negative" ↔ get_score compound v ≤ -(5/100)) ∧
      (get_sentiment compound v = "Neutral" ↔
        (-(5/100) < get_score compound v ∧ get_score compound v < 5/100)) ∧
      (v.isStr = false → get_sentiment compound v = "Neutral" ∧ get_score compound v = 0) := by
  unfold analyze_sentiment
  rw [hres]
  simp only [if_neg hne]
  have hgc : getColD (setCol df "sentiment"
      ((getColD df c).map (fun v => .vStr (get_sentiment compound v)))) c = getColD df c := by
    unfold getColD
    rw [getCol_setCol_other df "sentiment" c _ hns]
  refine ⟨?_, ?_, ?_⟩
  · rw [getCol_setCol_other _ "sentiment_score" "sentiment" _ (by decide), getCol_setCol_self]
  · rw [getCol_setCol_self, hgc]
  · intro v _
    cases v with
    | vStr s =>
      simp only [get_sentiment, get_score]
      constructor
      · constructor
        · intro h
          by_contra hlt
          rw [if_neg hlt] at h
          split_ifs at h <;> simp_all
        · intro h
          rw [if_pos h]
      constructor
      · constructor
        · intro h
          by_cases h1 : compound s ≥ 5/100
          · rw [if_pos h1] at h; simp_all
          · rw [if_neg h1] at h
            by_contra h2
            rw [if_neg h2] at h
            simp_all
        · intro h
          have h1 : ¬ compound s ≥ 5/100 := by
            intro hc
            have : (5 : ℚ)/100 ≤ -(5/100) := le_trans hc h
            norm_num at this
          rw [if_neg h1, if_pos h]
      constructor
      · constructor
        · intro h
          by_cases h1 : compound s ≥ 5/100
          · rw [if_pos h1] at h; simp_all
          · by_cases h2 : compound s ≤ -(5/100)
            · rw [if_neg h1, if_pos h2] at h; simp_all
            · exact ⟨lt_of_not_le h2, lt_of_not_le h1⟩
        · intro h
          have h1 : ¬ compound s ≥ 5/100 := not_le.2 h.2
          have h2 : ¬ compound s ≤ -(5/100) := not_le.2 h.1
          rw [if_neg h1, if_neg h2]
      · intro h
        simp [Value.isStr] at h
    | vNum q =>
      refine ⟨?_, ?_, ?_, ?_⟩ <;> simp [get_sentiment, get_score, Value.isStr]
    | vTime t =>
      refine ⟨?_, ?_, ?_, ?_⟩ <;> simp [get_sentiment, get_score, Value.isStr]
    | vNA =>
      refine ⟨?_, ?_, ?_, ?_⟩ <;> simp [get_sentiment, get_score, Value.isStr]

/-- C1 witness: the amended theorem applied to a concrete table with a
`Review` column. -/
theorem c1_label_consistent_with_score_witness :
    getCol (analyze_sentiment compoundW dfW1) "sentiment" =
      some ((getColD dfW1 "Review").map (fun v => .vStr (get_sentiment compoundW v))) ∧
    getCol (analyze_sentiment compoundW dfW1) "sentiment_score" =
      some ((getColD dfW1 "Review").map (fun v => .vNum (get_score compoundW v))) ∧
    ∀ v ∈ getColD dfW1 "Review",
      (get_sentiment compoundW v = "Positive" ↔ get_score compoundW v ≥ 5/100) ∧
      (get_sentiment compoundW v = "Negative" ↔ get_score compoundW v ≤ -(5/100)) ∧
      (get_sentiment compoundW v = "Neutral" ↔
        (-(5/100) < get_score compoundW v ∧ get_score compoundW v < 5/100)) ∧
      (v.isStr = false → get_sentiment compoundW v = "Neutral" ∧ get_score compoundW v = 0) :=
  c1_label_consistent_with_score compoundW dfW1 "Review" (by decide) (by decide) (by decide)

/-- C1 counterexample: on a table whose fallback text column is itself named
`sentiment`, the score column is computed from the freshly written labels,
not from the original text — the appended label `Positive` sits next to the
appended score `-1`, violating the claimed threshold consistency. -/
theorem c1_counterexample :
    getCol (analyze_sentiment compoundX dfX) "sentiment" = some [Value.vStr "Positive"] ∧
    getCol (analyze_sentiment compoundX dfX) "sentiment_score" = some [Value.vNum (-1)] ∧
    ¬ ((-1 : ℚ) ≥ 5/100) := by
  have hres : resolveTextCol dfX = some "sentiment" := by decide
  refine ⟨?_, ?_, by norm_num⟩ <;>
  · unfold analyze_sentiment
    rw [hres]
    norm_num [getCol_setCol_self, getCol_setCol_other, getColD, dfX, getCol, setCol, hasCol,
      List.find?, get_sentiment, get_score, compoundX, String.reduceBEq, String.reduceEq]
    try exact ⟨"sentiment_score", by decide⟩

theorem rndHalfEven_intCast (z : ℤ) : rndHalfEven (z : ℚ) = z := by
  unfold rndHalfEven
  norm_num

theorem pyRound_int (n : ℕ) (z : ℤ) (x : ℚ) (h : x * 10 ^ n = (z : ℚ)) :
    pyRound n x = (z : ℚ) / 10 ^ n := by
  unfold pyRound
  rw [h, rndHalfEven_intCast]

theorem eval_dfC2 :
    (analyze_market_sentiment ptTime dfC2).1 =
      ⟨"Very Positive", 2/5, 90, 60, 20, 20, 10, "Stable", []⟩ := by
  have hhas : hasCol dfC2 "sentiment" = true := by decide
  have hlikes : hasCol dfC2 "likes" = false := by decide
  have hrows : nRows dfC2 = 10 := by decide
  have hcol : getColD dfC2 "sentiment" = sentC2 := by decide
  have hp : countV sentC2 "Positive" = 6 := by decide
  have hn : countV sentC2 "Negative" = 2 := by decide
  have hu : countV sentC2 "Neutral" = 2 := by decide
  have hd : findDateCol patsMarket dfC2 = some "sentiment" := by decide
  have htemp : temporalRecs (sentC2.map (parseV ptTime)) sentC2 = [] := by decide
  have hpr : pyRound 1 (60 : ℚ) = 60 := by
    rw [pyRound_int 1 600 _ (by norm_num)]; norm_num
  have hnr : pyRound 1 (20 : ℚ) = 20 := by
    rw [pyRound_int 1 200 _ (by norm_num)]; norm_num
  have hsc : pyRound 3 ((2 : ℚ) / 5) = 2/5 := by
    rw [pyRound_int 3 400 _ (by norm_num)]; norm_num
  have hbase : baseRecs 60 20 20 = [] := by
    unfold baseRecs; norm_num
  unfold analyze_market_sentiment
  rw [hhas]
  simp only [hrows, hcol, hp, hn, hu, hd, hlikes, Bool.true_eq_false, Bool.false_eq_true,
    ite_false, ite_true, not_true, Nat.cast_ofNat]
  norm_num [hpr, hnr, hsc, htemp, hbase, min_def]

/-- C2 counterexample: in the 10-row scenario (6 Positive, 2 Negative,
2 Neutral) the maintain-strategy recommendation is NOT produced — the
positive ratio is exactly 60.0 and the cascade requires strictly more
than 60. -/
theorem c2_counterexample :
    (analyze_market_sentiment ptTime dfC2).1.positive_ratio = 60 ∧
    "✅ Strong positive sentiment - maintain current strategy" ∉
      (analyze_market_sentiment ptTime dfC2).1.recommendations := by
  rw [eval_dfC2]
  exact ⟨rfl, by simp⟩

/-- C2 (amended): the scenario yields sentiment_score 0.4, positive_ratio
60.0, negative_ratio 20.0 and overall sentiment Very Positive, but the
recommendation list is empty — in particular it does not contain the
maintain-current-strategy message, since `positive_ratio > 60` is false at
exactly 60.0. -/
theorem c2_market_scenario :
    (analyze_market_sentiment ptTime dfC2).1.sentiment_score = 2/5 ∧
    (analyze_market_sentiment ptTime dfC2).1.positive_ratio = 60 ∧
    (analyze_market_sentiment ptTime dfC2).1.negative_ratio = 20 ∧
    (analyze_market_sentiment ptTime dfC2).1.overall_sentiment = "Very Positive" ∧
    (analyze_market_sentiment ptTime dfC2).1.recommendations = [] := by
  rw [eval_dfC2]
  exact ⟨rfl, rfl, rfl, rfl, rfl⟩

theorem trends_snd_eval (pt : Value → Option ℚ) (df : DF) (d : String)
    (hd : findDateCol patsTrends df = some d) (h1 : hasCol df "sentiment" = true) :
    (get_sentiment_trends pt df).2 = setCol df "temp_date" ((getColD df d).map (parseV pt)) := by
  unfold get_sentiment_trends
  rw [hd]
  simp only [h1, ite_true]
  split <;> rfl

theorem trends_snd_id (pt : Value → Option ℚ) (df : DF)
    (h : findDateCol patsTrends df = none ∨ hasCol df "sentiment" = false) :
    (get_sentiment_trends pt df).2 = df := by
  unfold get_sentiment_trends
  rcases h with h | h
  · rw [h]
  · cases hd : findDateCol patsTrends df with
    | none => rfl
    | some d => simp only [h, Bool.false_eq_true, ite_false]

theorem market_snd_eval (pt : Value → Option ℚ) (df : DF) (d : String)
    (h1 : hasCol df "sentiment" = true) (h2 : nRows df ≠ 0)
    (hd : findDateCol patsMarket df = some d) :
    (analyze_market_sentiment pt df).2 = setCol df d ((getColD df d).map (parseV pt)) := by
  unfold analyze_market_sentiment
  rw [h1, hd]
  simp [h2]

theorem market_snd_id (pt : Value → Option ℚ) (df : DF)
    (h : findDateCol patsMarket df = none ∨ hasCol df "sentiment" = false ∨ nRows df = 0) :
    (analyze_market_sentiment pt df).2 = df := by
  unfold analyze_market_sentiment
  rcases h with h | h | h
  · rw [h]
    by_cases h1 : hasCol df "sentiment" = true
    · simp only [h1, not_true, ite_false, Bool.not_eq_true]
      by_cases h2 : nRows df = 0 <;> simp [h2]
    · simp [h1]
  · simp [h]
  · by_cases h1 : hasCol df "sentiment" = true <;> simp [h1, h]

theorem sentiment_matches_time (df : DF) (h : hasCol df "sentiment" = true) :
    (findDateCol patsMarket df).isSome := by
  unfold findDateCol
  rw [List.find?_isSome]
  refine ⟨"sentiment", ?_, by decide⟩
  unfold hasCol at h
  rcases List.any_eq_true.1 h with ⟨p, hp, he⟩
  have : p.1 = "sentiment" := by simpa using he
  unfold colNames
  exact this ▸ List.mem_map_of_mem Prod.fst hp

/-- C3 (amended): `get_sentiment_trends` and `analyze_market_sentiment` do
write into the shared classified table.  Precisely: `get_sentiment_trends`
adds a `temp_date` column whenever a date/time/created-matching column and a
`sentiment` column exist, and leaves the table unchanged otherwise;
`analyze_market_sentiment` overwrites its first date/time-matching column
with the coerced timestamps whenever a `sentiment` column exists and the
table is non-empty, and leaves the table unchanged otherwise — and whenever
a `sentiment` column exists the date/time probe necessarily succeeds, since
the name `sentiment` itself contains the substring `time`. -/
theorem c3_components_mutate_table (pt : Value → Option ℚ) (df : DF) :
    ((get_sentiment_trends pt df).2 =
      match findDateCol patsTrends df, hasCol df "sentiment" with
      | some d, true => setCol df "temp_date" ((getColD df d).map (parseV pt))
      | _, _ => df) ∧
    ((analyze_market_sentiment pt df).2 =
      match findDateCol patsMarket df, hasCol df "sentiment", nRows df with
      | some d, true, _ + 1 => setCol df d ((getColD df d).map (parseV pt))
      | _, _, _ => df) ∧
    (hasCol df "sentiment" = true → (findDateCol patsMarket df).isSome) := by
  refine ⟨?_, ?_, sentiment_matches_time df⟩
  · cases hd : findDateCol patsTrends df with
    | none => exact trends_snd_id pt df (Or.inl hd)
    | some d =>
      cases h1 : hasCol df "sentiment" with
      | false => exact trends_snd_id pt df (Or.inr h1)
      | true => exact trends_snd_eval pt df d hd h1
  · cases hd : findDateCol patsMarket df with
    | none => exact market_snd_id pt df (Or.inl hd)
    | some d =>
      cases h1 : hasCol df "sentiment" with
      | false => exact market_snd_id pt df (Or.inr (Or.inl h1))
      | true =>
        cases h2 : nRows df with
        | zero => exact market_snd_id pt df (Or.inr (Or.inr h2))
        | succ k => exact market_snd_eval pt df d h1 (by rw [h2]; exact Nat.succ_ne_zero k) hd

/-- C3 witness: the mutation characterization applied to the concrete 10-row
classified table. -/
theorem c3_components_mutate_table_witness :
    ((get_sentiment_trends ptTime dfC2).2 =
      match findDateCol patsTrends dfC2, hasCol dfC2 "sentiment" with
      | some d, true => setCol dfC2 "temp_date" ((getColD dfC2 d).map (parseV ptTime))
      | _, _ => dfC2) ∧
    ((analyze_market_sentiment ptTime dfC2).2 =
      match findDateCol patsMarket dfC2, hasCol dfC2 "sentiment", nRows dfC2 with
      | some d, true, _ + 1 => setCol dfC2 d ((getColD dfC2 d).map (parseV ptTime))
      | _, _, _ => dfC2) ∧
    (findDateCol patsMarket dfC2).isSome :=
  ⟨(c3_components_mutate_table ptTime dfC2).1,
   (c3_components_mutate_table ptTime dfC2).2.1,
   (c3_components_mutate_table ptTime dfC2).2.2 (by decide)⟩

/-- C3 counterexample: on the concrete 10-row classified table both
components hand back a table different from their input — the trend
aggregator has appended a `temp_date` column and the market synthesizer has
coerced the `sentiment` column (its first date/time-matching column) to
all-missing. -/
theorem c3_counterexample :
    (get_sentiment_trends ptTime dfC2).2 ≠ dfC2 ∧
    (analyze_market_sentiment ptTime dfC2).2 ≠ dfC2 := by
  constructor
  · rw [trends_snd_eval ptTime dfC2 "sentiment" (by decide) (by decide)]
    decide
  · rw [market_snd_eval ptTime dfC2 "sentiment" (by decide) (by decide) (by decide)]
    decide

/-- C4 (amended): only the Sentiment Classifier's synonym list contains
`body`; the Keyword Extractor, Topic Extractor and Issue Detector iterate
the five-name list `{feedback, review, comment, content, text}`, so on a
table whose only synonym-named column is `body` they fail to resolve a text
column and return their empty defaults, while `analyze_sentiment` alone
resolves the `body` column. -/
theorem c4_body_only_in_classifier (tokenize : String → List String) (stop : List String)
    (df : DF) (top_n : ℕ) (cb : String)
    (hmem : cb ∈ colNames df) (hlow : lowerStr cb = "body")
    (h5 : ∀ c ∈ colNames df, textSyn5.contains (lowerStr c) = false) :
    findTextCol textSyn5 df = none ∧
    get_trending_topics tokenize stop df top_n = [] ∧
    detect_emerging_issues df = [] ∧
    extract_keywords_analysis tokenize stop df = [] ∧
    ∃ c, findTextCol textSyn6 df = some c ∧ lowerStr c = "body" := by
  have hnone : findTextCol textSyn5 df = none := by
    unfold findTextCol
    rw [List.find?_eq_none]
    intro x hx
    rw [h5 x hx]
    simp
  refine ⟨hnone, ?_, ?_, ?_, ?_⟩
  · unfold get_trending_topics
    rw [hnone]
  · unfold detect_emerging_issues
    by_cases h : hasCol df "sentiment" = true
    · simp only [h, not_true, ite_false, Bool.not_eq_true]
      rw [hnone]
    · simp [h]
  · unfold extract_keywords_analysis
    rw [hnone]
  · have hsome : (findTextCol textSyn6 df).isSome := by
      unfold findTextCol
      rw [List.find?_isSome]
      exact ⟨cb, hmem, by rw [hlow]; decide⟩
    rcases Option.isSome_iff_exists.1 hsome with ⟨c, hc⟩
    refine ⟨c, hc, ?_⟩
    unfold findTextCol at hc
    have hp := @List.find?_some String (fun x => textSyn6.contains (lowerStr x)) c (colNames df) hc
    simp only at hp
    have hcmem : c ∈ colNames df := List.mem_of_find?_eq_some hc
    have h5c := h5 c hcmem
    have hmem6 : lowerStr c ∈ textSyn6 := by
      rw [List.contains_iff_exists_mem_beq] at hp
      rcases hp with ⟨a, ha, hb⟩
      rwa [show lowerStr c = a from by simpa using hb]
    have hcl : lowerStr c ∉ textSyn5 := by
      intro hin
      have : textSyn5.contains (lowerStr c) = true :=
        List.contains_iff_exists_mem_beq.2 ⟨lowerStr c, hin, by simp⟩
      rw [h5c] at this
      exact Bool.false_ne_true this
    simp only [textSyn6, textSyn5, List.mem_cons, List.not_mem_nil] at hmem6 hcl
    tauto

/-- C4 witness: the amended theorem applied to a table whose only
synonym-named column is `body`. -/
theorem c4_body_only_in_classifier_witness :
    findTextCol textSyn5 dfW4 = none ∧
    get_trending_topics tokWhole [] dfW4 10 = [] ∧
    detect_emerging_issues dfW4 = [] ∧
    extract_keywords_analysis tokWhole [] dfW4 = [] ∧
    ∃ c, findTextCol textSyn6 dfW4 = some c ∧ lowerStr c = "body" :=
  c4_body_only_in_classifier tokWhole [] dfW4 10 "body" (by decide) (by decide) (by decide)

/-- C4 counterexample: on a table with a `body` column holding negative
text about quality (and its Negative label), the Keyword Extractor, Topic
Extractor and Issue Detector all return their empty defaults even though
the six-synonym rule of the claim resolves `body`. -/
theorem c4_counterexample :
    findTextCol textSyn6 dfW4 = some "body" ∧
    get_trending_topics tokWhole [] dfW4 10 = [] ∧
    detect_emerging_issues dfW4 = [] ∧
    extract_keywords_analysis tokWhole [] dfW4 = [] := by
  refine ⟨by decide, ?_, ?_, ?_⟩ <;> decide

theorem market_recs_eval (pt : Value → Option ℚ) (df : DF) (d : String)
    (h1 : hasCol df "sentiment" = true) (h2 : nRows df ≠ 0)
    (hd : findDateCol patsMarket df = some d) :
    (analyze_market_sentiment pt df).1.recommendations =
      baseRecs (pyRound 1 ((countV (getColD df "sentiment") "Positive" : ℚ) / nRows df * 100))
        (pyRound 1 ((countV (getColD df "sentiment") "Negative" : ℚ) / nRows df * 100))
        (pyRound 1 ((countV (getColD df "sentiment") "Neutral" : ℚ) / nRows df * 100)) ++
      temporalRecs ((getColD df d).map (parseV pt)) (getColD df "sentiment") := by
  unfold analyze_market_sentiment
  rw [h1, hd]
  simp [h2]

theorem temporalRecs_sorted_eval (parsed sentCol : List Value)
    (hne : cleanPairs parsed sentCol ≠ [])
    (hs : List.Sorted timeLe (cleanPairs parsed sentCol))
    (hlen : 2 ≤ (cleanPairs parsed sentCol).length) :
    temporalRecs parsed sentCol =
      (if posFrac ((cleanPairs parsed sentCol).drop ((cleanPairs parsed sentCol).length / 2)) >
          posFrac ((cleanPairs parsed sentCol).take ((cleanPairs parsed sentCol).length / 2)) + 1/10
       then [msgImproving]
       else if posFrac ((cleanPairs parsed sentCol).drop ((cleanPairs parsed sentCol).length / 2)) <
          posFrac ((cleanPairs parsed sentCol).take ((cleanPairs parsed sentCol).length / 2)) - 1/10
       then [msgDeclining]
       else []) := by
  simp only [temporalRecs]
  rw [if_neg hne, List.Sorted.insertionSort_eq hs]
  have h1 : 0 < ((cleanPairs parsed sentCol).take ((cleanPairs parsed sentCol).length / 2)).length := by
    rw [List.length_take]
    omega
  have h2 : 0 < ((cleanPairs parsed sentCol).drop ((cleanPairs parsed sentCol).length / 2)).length := by
    rw [List.length_drop]
    omega
  rw [if_pos ⟨h1, h2⟩]

/-- C5 (amended): the Market Insight Synthesizer's temporal probe matches
only column names containing `date` or `time` (not `created`); when it
resolves a column whose values all parse and arrive already time-ordered
(with at least two parseable rows), the first-half/second-half comparison
runs and appends exactly the improving note when the second half's
Positive fraction exceeds the first's by more than 0.1, exactly the
declining note in the symmetric case, and nothing otherwise — and neither
note can come from the ratio cascade. -/
theorem c5_temporal_check (pt : Value → Option ℚ) (df : DF) (d : String)
    (h1 : hasCol df "sentiment" = true) (h2 : nRows df ≠ 0)
    (hd : findDateCol patsMarket df = some d)
    (hne : cleanPairs ((getColD df d).map (parseV pt)) (getColD df "sentiment") ≠ [])
    (hs : List.Sorted timeLe (cleanPairs ((getColD df d).map (parseV pt)) (getColD df "sentiment")))
    (hlen : 2 ≤ (cleanPairs ((getColD df d).map (parseV pt)) (getColD df "sentiment")).length) :
    ((analyze_market_sentiment pt df).1.recommendations =
      baseRecs (pyRound 1 ((countV (getColD df "sentiment") "Positive" : ℚ) / nRows df * 100))
        (pyRound 1 ((countV (getColD df "sentiment") "Negative" : ℚ) / nRows df * 100))
        (pyRound 1 ((countV (getColD df "sentiment") "Neutral" : ℚ) / nRows df * 100)) ++
      (if posFrac ((cleanPairs ((getColD df d).map (parseV pt)) (getColD df "sentiment")).drop
            ((cleanPairs ((getColD df d).map (parseV pt)) (getColD df "sentiment")).length / 2)) >
          posFrac ((cleanPairs ((getColD df d).map (parseV pt)) (getColD df "sentiment")).take
            ((cleanPairs ((getColD df d).map (parseV pt)) (getColD df "sentiment")).length / 2)) + 1/10
       then [msgImproving]
       else if posFrac ((cleanPairs ((getColD df d).map (parseV pt)) (getColD df "sentiment")).drop
            ((cleanPairs ((getColD df d).map (parseV pt)) (getColD df "sentiment")).length / 2)) <
          posFrac ((cleanPairs ((getColD df d).map (parseV pt)) (getColD df "sentiment")).take
            ((cleanPairs ((getColD df d).map (parseV pt)) (getColD df "sentiment")).length / 2)) - 1/10
       then [msgDeclining]
       else [])) ∧
    (∀ a b c : ℚ, msgImproving ∉ baseRecs a b c ∧ msgDeclining ∉ baseRecs a b c) := by
  constructor
  · rw [market_recs_eval pt df d h1 h2 hd,
      temporalRecs_sorted_eval ((getColD df d).map (parseV pt)) (getColD df "sentiment") hne hs hlen]
  · intro a b c
    constructor <;>
    · unfold baseRecs
      split_ifs <;> simp [msgImproving, msgDeclining]

/-- C5 witness: the amended theorem applied to a concrete table whose time
column is named `date`, with sentiment improving from the first half to the
second. -/
theorem c5_temporal_check_witness :
    ((analyze_market_sentiment ptTime dfW5).1.recommendations =
      baseRecs (pyRound 1 ((countV (getColD dfW5 "sentiment") "Positive" : ℚ) / nRows dfW5 * 100))
        (pyRound 1 ((countV (getColD dfW5 "sentiment") "Negative" : ℚ) / nRows dfW5 * 100))
        (pyRound 1 ((countV (getColD dfW5 "sentiment") "Neutral" : ℚ) / nRows dfW5 * 100)) ++
      (if posFrac ((cleanPairs ((getColD dfW5 "date").map (parseV ptTime)) (getColD dfW5 "sentiment")).drop
            ((cleanPairs ((getColD dfW5 "date").map (parseV ptTime)) (getColD dfW5 "sentiment")).length / 2)) >
          posFrac ((cleanPairs ((getColD dfW5 "date").map (parseV ptTime)) (getColD dfW5 "sentiment")).take
            ((cleanPairs ((getColD dfW5 "date").map (parseV ptTime)) (getColD dfW5 "sentiment")).length / 2)) + 1/10
       then [msgImproving]
       else if posFrac ((cleanPairs ((getColD dfW5 "date").map (parseV ptTime)) (getColD dfW5 "sentiment")).drop
            ((cleanPairs ((getColD dfW5 "date").map (parseV ptTime)) (getColD dfW5 "sentiment")).length / 2)) <
          posFrac ((cleanPairs ((getColD dfW5 "date").map (parseV ptTime)) (getColD dfW5 "sentiment")).take
            ((cleanPairs ((getColD dfW5 "date").map (parseV ptTime)) (getColD dfW5 "sentiment")).length / 2)) - 1/10
       then [msgDeclining]
       else [])) ∧
    (∀ a b c : ℚ, msgImproving ∉ baseRecs a b c ∧ msgDeclining ∉ baseRecs a b c) :=
  c5_temporal_check ptTime dfW5 "date" (by decide) (by decide) (by decide) (by decide)
    (by decide) (by decide)

theorem eval_dfC5 :
    (analyze_market_sentiment ptTime dfC5).1 =
      ⟨"Neutral", 0, 55, 50, 50, 0, 4, "Stable",
        ["⚠️ High negative sentiment detected",
         "🔧 Immediate action recommended - investigate root causes",
         "💬 Increase customer engagement and support"]⟩ := by
  have hhas : hasCol dfC5 "sentiment" = true := by decide
  have hlikes : hasCol dfC5 "likes" = false := by decide
  have hrows : nRows dfC5 = 4 := by decide
  have hcol : getColD dfC5 "sentiment" =
      [Value.vStr "Negative", Value.vStr "Negative",
       Value.vStr "Positive", Value.vStr "Positive"] := by decide
  have hp : countV [Value.vStr "Negative", Value.vStr "Negative",
      Value.vStr "Positive", Value.vStr "Positive"] "Positive" = 2 := by decide
  have hn : countV [Value.vStr "Negative", Value.vStr "Negative",
      Value.vStr "Positive", Value.vStr "Positive"] "Negative" = 2 := by decide
  have hu : countV [Value.vStr "Negative", Value.vStr "Negative",
      Value.vStr "Positive", Value.vStr "Positive"] "Neutral" = 0 := by decide
  have hd : findDateCol patsMarket dfC5 = some "sentiment" := by decide
  have htemp : temporalRecs
      ([Value.vStr "Negative", Value.vStr "Negative",
        Value.vStr "Positive", Value.vStr "Positive"].map (parseV ptTime))
      [Value.vStr "Negative", Value.vStr "Negative",
       Value.vStr "Positive", Value.vStr "Positive"] = [] := by decide
  have hpr : pyRound 1 (50 : ℚ) = 50 := by
    rw [pyRound_int 1 500 _ (by norm_num)]; norm_num
  have hur : pyRound 1 (0 : ℚ) = 0 := by
    rw [pyRound_int 1 0 _ (by norm_num)]; norm_num
  have hsc : pyRound 3 (0 : ℚ) = 0 := by
    rw [pyRound_int 3 0 _ (by norm_num)]; norm_num
  have hbase : baseRecs 50 50 0 =
      ["⚠️ High negative sentiment detected",
       "🔧 Immediate action recommended - investigate root causes",
       "💬 Increase customer engagement and support"] := by
    unfold baseRecs; norm_num
  unfold analyze_market_sentiment
  rw [hhas]
  simp only [hrows, hcol, hp, hn, hu, hd, hlikes, Bool.true_eq_false, Bool.false_eq_true,
    ite_false, ite_true, not_true, Nat.cast_ofNat]
  norm_num [hpr, hur, hsc, htemp, hbase]
  decide

/-- C5 counterexample: on a table whose only genuinely time-like data column
is `created_at` and whose Positive rows all lie in the second half by time,
the probe (matching only `date`/`time`) picks the `sentiment` column
instead, its values coerce to nothing, and no improving note is appended —
even though the second half's Positive fraction (1) exceeds the first's (0)
by more than 0.1. -/
theorem c5_counterexample :
    findDateCol patsMarket dfC5 = some "sentiment" ∧
    posFrac ((cleanPairs ((getColD dfC5 "created_at").map (parseV ptTime))
      (getColD dfC5 "sentiment")).take 2) = 0 ∧
    posFrac ((cleanPairs ((getColD dfC5 "created_at").map (parseV ptTime))
      (getColD dfC5 "sentiment")).drop 2) = 1 ∧
    msgImproving ∉ (analyze_market_sentiment ptTime dfC5).1.recommendations := by
  refine ⟨by decide, ?_, ?_, ?_⟩
  · have h : (cleanPairs ((getColD dfC5 "created_at").map (parseV ptTime))
        (getColD dfC5 "sentiment")).take 2 =
        [(0, Value.vStr "Negative"), (1, Value.vStr "Negative")] := by decide
    rw [h]
    norm_num [posFrac]
    all_goals decide
  · have h : (cleanPairs ((getColD dfC5 "created_at").map (parseV ptTime))
        (getColD dfC5 "sentiment")).drop 2 =
        [(2, Value.vStr "Positive"), (3, Value.vStr "Positive")] := by decide
    rw [h]
    norm_num [posFrac]
  · rw [eval_dfC5]
    simp [msgImproving]

theorem trends_freq_eval (pt : Value → Option ℚ) (df : DF) (d : String)
    (hd : findDateCol patsTrends df = some d) (h1 : hasCol df "sentiment" = true)
    (hne : cleanTimes pt df d ≠ []) :
    (get_sentiment_trends pt df).1 =
      some (chooseFreq (listMax (cleanTimes pt df d) - listMin (cleanTimes pt df d))) := by
  unfold get_sentiment_trends
  rw [hd]
  simp only [h1, ite_true]
  rw [if_neg hne]

theorem chooseFreq_spec (span : ℚ) :
    (chooseFreq span = .daily ↔ span < 60) ∧
    (chooseFreq span = .weekly ↔ 60 ≤ span ∧ span < 365) ∧
    (chooseFreq span = .monthly ↔ 365 ≤ span) := by
  have h60 : ⌊span⌋ < 60 ↔ span < 60 := by
    rw [Int.floor_lt]
    norm_num
  have h365 : ⌊span⌋ < 365 ↔ span < 365 := by
    rw [Int.floor_lt]
    norm_num
  unfold chooseFreq
  split_ifs with ha hb
  · have hs : span < 60 := h60.1 ha
    exact ⟨iff_of_true rfl hs,
      iff_of_false (by decide) (fun hc => absurd hs (not_lt.2 hc.1)),
      iff_of_false (by decide) (fun hc => absurd hs (not_lt.2 (by linarith)))⟩
  · have hs1 : 60 ≤ span := le_of_not_lt (fun h => ha (h60.2 h))
    have hs2 : span < 365 := h365.1 hb
    exact ⟨iff_of_false (by decide) (fun hc => absurd hs1 (not_le.2 hc)),
      iff_of_true rfl ⟨hs1, hs2⟩,
      iff_of_false (by decide) (fun hc => absurd hs2 (not_lt.2 hc))⟩
  · have hs : 365 ≤ span := le_of_not_lt (fun h => hb (h365.2 h))
    exact ⟨iff_of_false (by decide) (fun hc => absurd hc (not_lt.2 (by linarith))),
      iff_of_false (by decide) (fun hc => absurd hs (not_le.2 hc.2)),
      iff_of_true rfl hs⟩

/-- C6: when `get_sentiment_trends` reaches the span computation (a
date/time/created column and sentiment are present and some timestamps
parse), the granularity is daily exactly when the observed span is strictly
below 60 days, weekly exactly when it is at least 60 and strictly below 365,
and monthly otherwise — so a span of exactly 60 days is weekly and exactly
365 days is monthly. -/
theorem c6_trend_granularity (pt : Value → Option ℚ) (df : DF) (d : String)
    (hd : findDateCol patsTrends df = some d) (h1 : hasCol df "sentiment" = true)
    (hne : cleanTimes pt df d ≠ []) :
    (get_sentiment_trends pt df).1 =
      some (chooseFreq (listMax (cleanTimes pt df d) - listMin (cleanTimes pt df d))) ∧
    (chooseFreq (listMax (cleanTimes pt df d) - listMin (cleanTimes pt df d)) = .daily ↔
      listMax (cleanTimes pt df d) - listMin (cleanTimes pt df d) < 60) ∧
    (chooseFreq (listMax (cleanTimes pt df d) - listMin (cleanTimes pt df d)) = .weekly ↔
      60 ≤ listMax (cleanTimes pt df d) - listMin (cleanTimes pt df d) ∧
        listMax (cleanTimes pt df d) - listMin (cleanTimes pt df d) < 365) ∧
    (chooseFreq (listMax (cleanTimes pt df d) - listMin (cleanTimes pt df d)) = .monthly ↔
      365 ≤ listMax (cleanTimes pt df d) - listMin (cleanTimes pt df d)) :=
  ⟨trends_freq_eval pt df d hd h1 hne,
   (chooseFreq_spec _).1, (chooseFreq_spec _).2.1, (chooseFreq_spec _).2.2⟩

/-- C6 witness: the theorem applied to a concrete table spanning exactly 60
days, together with the concrete edge evaluations — a 60-day span is
weekly, a 365-day span is monthly. -/
theorem c6_trend_granularity_witness :
    ((get_sentiment_trends ptTime dfW6).1 =
      some (chooseFreq (listMax (cleanTimes ptTime dfW6 "date") -
        listMin (cleanTimes ptTime dfW6 "date"))) ∧
    (chooseFreq (listMax (cleanTimes ptTime dfW6 "date") -
        listMin (cleanTimes ptTime dfW6 "date")) = .daily ↔
      listMax (cleanTimes ptTime dfW6 "date") - listMin (cleanTimes ptTime dfW6 "date") < 60) ∧
    (chooseFreq (listMax (cleanTimes ptTime dfW6 "date") -
        listMin (cleanTimes ptTime dfW6 "date")) = .weekly ↔
      60 ≤ listMax (cleanTimes ptTime dfW6 "date") - listMin (cleanTimes ptTime dfW6 "date") ∧
        listMax (cleanTimes ptTime dfW6 "date") - listMin (cleanTimes ptTime dfW6 "date") < 365) ∧
    (chooseFreq (listMax (cleanTimes ptTime dfW6 "date") -
        listMin (cleanTimes ptTime dfW6 "date")) = .monthly ↔
      365 ≤ listMax (cleanTimes ptTime dfW6 "date") - listMin (cleanTimes ptTime dfW6 "date"))) ∧
    listMax (cleanTimes ptTime dfW6 "date") - listMin (cleanTimes ptTime dfW6 "date") = 60 ∧
    chooseFreq 60 = .weekly ∧ chooseFreq 365 = .monthly := by
  refine ⟨c6_trend_granularity ptTime dfW6 "date" (by decide) (by decide) (by decide),
    ?_, ?_, ?_⟩
  · have h : cleanTimes ptTime dfW6 "date" = [0, 60] := by decide
    rw [h]
    norm_num [listMax, listMin]
  · norm_num [chooseFreq]
  · norm_num [chooseFreq]

theorem rndHalfEven_le (q : ℚ) : (rndHalfEven q : ℚ) ≤ q + 1/2 := by
  have hf1 : (⌊q⌋ : ℚ) ≤ q := Int.floor_le q
  have hf2 : q < ⌊q⌋ + 1 := Int.lt_floor_add_one q
  simp only [rndHalfEven]
  split_ifs with h1 h2 h3 <;> push_cast <;> linarith

theorem le_rndHalfEven (q : ℚ) : q - 1/2 ≤ (rndHalfEven q : ℚ) := by
  have hf1 : (⌊q⌋ : ℚ) ≤ q := Int.floor_le q
  have hf2 : q < ⌊q⌋ + 1 := Int.lt_floor_add_one q
  simp only [rndHalfEven]
  split_ifs with h1 h2 h3 <;> push_cast <;> linarith

theorem market_ratios_eval (pt : Value → Option ℚ) (df : DF)
    (h1 : hasCol df "sentiment" = true) (h2 : nRows df ≠ 0) :
    (analyze_market_sentiment pt df).1.positive_ratio =
      pyRound 1 ((countV (getColD df "sentiment") "Positive" : ℚ) / nRows df * 100) ∧
    (analyze_market_sentiment pt df).1.negative_ratio =
      pyRound 1 ((countV (getColD df "sentiment") "Negative" : ℚ) / nRows df * 100) ∧
    (analyze_market_sentiment pt df).1.neutral_ratio =
      pyRound 1 ((countV (getColD df "sentiment") "Neutral" : ℚ) / nRows df * 100) := by
  unfold analyze_market_sentiment
  rw [h1]
  cases hd : findDateCol patsMarket df <;> simp [h2]

theorem countV_three (l : List Value)
    (hvals : ∀ v ∈ l, v = Value.vStr "Positive" ∨ v = Value.vStr "Negative" ∨
      v = Value.vStr "Neutral") :
    countV l "Positive" + countV l "Negative" + countV l "Neutral" = l.length := by
  induction l with
  | nil => rfl
  | cons v t ih =>
    have ht : ∀ w ∈ t, w = Value.vStr "Positive" ∨ w = Value.vStr "Negative" ∨
        w = Value.vStr "Neutral" := fun w hw => hvals w (List.mem_cons_of_mem v hw)
    have hv := hvals v (List.mem_cons_self v t)
    have iht := ih ht
    rcases hv with rfl | rfl | rfl <;>
      simp only [countV, List.countP_cons,
        (by decide : (Value.vStr "Positive" == Value.vStr "Positive") = true),
        (by decide : (Value.vStr "Positive" == Value.vStr "Negative") = false),
        (by decide : (Value.vStr "Positive" == Value.vStr "Neutral") = false),
        (by decide : (Value.vStr "Negative" == Value.vStr "Positive") = false),
        (by decide : (Value.vStr "Negative" == Value.vStr "Negative") = true),
        (by decide : (Value.vStr "Negative" == Value.vStr "Neutral") = false),
        (by decide : (Value.vStr "Neutral" == Value.vStr "Positive") = false),
        (by decide : (Value.vStr "Neutral" == Value.vStr "Negative") = false),
        (by decide : (Value.vStr "Neutral" == Value.vStr "Neutral") = true),
        Bool.false_eq_true, eq_self_iff_true, if_true, if_false,
        List.length_cons] at iht ⊢ <;>
      omega

/-- C7: when every sentiment cell carries one of the three labels and the
table is non-empty (with the sentiment column aligned to the row count),
the three rounded percentage ratios of the market report sum to a value in
the interval [99.9, 100.1]. -/
theorem c7_ratios_sum_bounded (pt : Value → Option ℚ) (df : DF)
    (h1 : hasCol df "sentiment" = true)
    (h2 : 0 < nRows df)
    (hlen : (getColD df "sentiment").length = nRows df)
    (hvals : ∀ v ∈ getColD df "sentiment",
      v = Value.vStr "Positive" ∨ v = Value.vStr "Negative" ∨ v = Value.vStr "Neutral") :
    (999/10 : ℚ) ≤ (analyze_market_sentiment pt df).1.positive_ratio +
      (analyze_market_sentiment pt df).1.negative_ratio +
      (analyze_market_sentiment pt df).1.neutral_ratio ∧
    (analyze_market_sentiment pt df).1.positive_ratio +
      (analyze_market_sentiment pt df).1.negative_ratio +
      (analyze_market_sentiment pt df).1.neutral_ratio ≤ (1001/10 : ℚ) := by
  obtain ⟨e1, e2, e3⟩ := market_ratios_eval pt df h1 (Nat.pos_iff_ne_zero.1 h2)
  rw [e1, e2, e3]
  have habc : countV (getColD df "sentiment") "Positive" +
      countV (getColD df "sentiment") "Negative" +
      countV (getColD df "sentiment") "Neutral" = nRows df := by
    rw [← hlen]
    exact countV_three _ hvals
  set a := countV (getColD df "sentiment") "Positive" with ha
  set b := countV (getColD df "sentiment") "Negative" with hb
  set c := countV (getColD df "sentiment") "Neutral" with hc
  set T := nRows df with hT
  have hTq : (0 : ℚ) < T := by exact_mod_cast h2
  have hx : ((a : ℚ) / T * 100) * 10 + ((b : ℚ) / T * 100) * 10 + ((c : ℚ) / T * 100) * 10
      = 1000 := by
    have : ((a : ℚ) + b + c) = (T : ℚ) := by exact_mod_cast habc
    field_simp
    linarith [this]
  simp only [pyRound, pow_one]
  set x1 := ((a : ℚ) / T * 100) * 10
  set x2 := ((b : ℚ) / T * 100) * 10
  set x3 := ((c : ℚ) / T * 100) * 10
  have b1l := le_rndHalfEven x1
  have b1u := rndHalfEven_le x1
  have b2l := le_rndHalfEven x2
  have b2u := rndHalfEven_le x2
  have b3l := le_rndHalfEven x3
  have b3u := rndHalfEven_le x3
  have hS1 : (999 : ℤ) ≤ rndHalfEven x1 + rndHalfEven x2 + rndHalfEven x3 := by
    have hq : (998 : ℚ) < ((rndHalfEven x1 + rndHalfEven x2 + rndHalfEven x3 : ℤ) : ℚ) := by
      push_cast
      linarith
    have : (998 : ℤ) < rndHalfEven x1 + rndHalfEven x2 + rndHalfEven x3 := by exact_mod_cast hq
    omega
  have hS2 : rndHalfEven x1 + rndHalfEven x2 + rndHalfEven x3 ≤ (1001 : ℤ) := by
    have hq : ((rndHalfEven x1 + rndHalfEven x2 + rndHalfEven x3 : ℤ) : ℚ) < (1002 : ℚ) := by
      push_cast
      linarith
    have : rndHalfEven x1 + rndHalfEven x2 + rndHalfEven x3 < (1002 : ℤ) := by exact_mod_cast hq
    omega
  have hS1q : (999 : ℚ) ≤ ((rndHalfEven x1 + rndHalfEven x2 + rndHalfEven x3 : ℤ) : ℚ) := by
    exact_mod_cast hS1
  have hS2q : ((rndHalfEven x1 + rndHalfEven x2 + rndHalfEven x3 : ℤ) : ℚ) ≤ (1001 : ℚ) := by
    exact_mod_cast hS2
  push_cast at hS1q hS2q
  constructor <;> linarith

/-- C7 witness: the bound applied to a concrete 3-row table whose three
ratios are each 33.3 (summing to 99.9, the lower edge). -/
theorem c7_ratios_sum_bounded_witness :
    (999/10 : ℚ) ≤ (analyze_market_sentiment ptTime dfW7).1.positive_ratio +
      (analyze_market_sentiment ptTime dfW7).1.negative_ratio +
      (analyze_market_sentiment ptTime dfW7).1.neutral_ratio ∧
    (analyze_market_sentiment ptTime dfW7).1.positive_ratio +
      (analyze_market_sentiment ptTime dfW7).1.negative_ratio +
      (analyze_market_sentiment ptTime dfW7).1.neutral_ratio ≤ (1001/10 : ℚ) :=
  c7_ratios_sum_bounded ptTime dfW7 (by decide) (by decide) (by decide) (by decide)

/-- C9: the Issue Detector returns at most 5 entries, every entry has a
positive mention count, the entries are ordered by mention count descending,
and each entry's severity tier is exactly the High/Medium/Low
classification of its count against 0.3 and 0.1 times the negative-row
count. -/
theorem c9_issue_detector (df : DF) :
    (detect_emerging_issues df).length ≤ 5 ∧
    List.Pairwise issueGe (detect_emerging_issues df) ∧
    (∀ e ∈ detect_emerging_issues df, 0 < e.mentions) ∧
    (∀ c, findTextCol textSyn5 df = some c →
      ∀ e ∈ detect_emerging_issues df,
        e.severity = severityOf e.mentions (negTexts df c).length) := by
  unfold detect_emerging_issues
  by_cases h1 : hasCol df "sentiment" = true
  case neg =>
    simp [h1]
  case pos =>
    simp only [h1, not_true, ite_false, Bool.not_eq_true]
    cases hc : findTextCol textSyn5 df with
    | none => simp
    | some c =>
      by_cases hn : (negTexts df c).length = 0
      case pos => simp [hn]
      case neg =>
        simp only [hn, ite_false, Bool.false_eq_true]
        have hmem : ∀ e, e ∈ ((issuePatterns.filterMap
            (fun pat =>
              let count := (negTexts df c).countP (rowMatches pat.2)
              if count = 0 then none
              else some (⟨titleStr pat.1, count, severityOf count (negTexts df c).length,
                pyRound 1 ((count : ℚ) / (negTexts df c).length * 100)⟩ : IssueEntry))).insertionSort
                issueGe).take 5 →
            0 < e.mentions ∧ e.severity = severityOf e.mentions (negTexts df c).length := by
          intro e he
          have h2 := (List.take_sublist 5 _).subset he
          rw [(List.perm_insertionSort issueGe _).mem_iff] at h2
          rcases List.mem_filterMap.1 h2 with ⟨pat, _, hf⟩
          simp only at hf
          split_ifs at hf with hz
          injection hf with hf2
          cases hf2
          exact ⟨Nat.pos_of_ne_zero hz, rfl⟩
        refine ⟨?_, ?_, ?_, ?_⟩
        · rw [List.length_take]
          exact min_le_left 5 _
        · exact List.Pairwise.sublist (List.take_sublist 5 _)
            (List.sorted_insertionSort issueGe _)
        · intro e he
          exact (hmem e he).1
        · intro c2 hc2 e he
          have h3 : c2 = c := by
            injection hc2 with h4
            exact h4.symm
          subst h3
          exact (hmem e he).2

/-- C9 witness: the theorem applied to a concrete table with one Negative
row mentioning the quality keyword `broken`. -/
theorem c9_issue_detector_witness :
    (detect_emerging_issues dfW9).length ≤ 5 ∧
    List.Pairwise issueGe (detect_emerging_issues dfW9) ∧
    (∀ e ∈ detect_emerging_issues dfW9, 0 < e.mentions) ∧
    (∀ e ∈ detect_emerging_issues dfW9,
      e.severity = severityOf e.mentions (negTexts dfW9 "text").length) :=
  ⟨(c9_issue_detector dfW9).1, (c9_issue_detector dfW9).2.1,
   (c9_issue_detector dfW9).2.2.1,
   (c9_issue_detector dfW9).2.2.2 "text" (by decide)⟩

theorem keys_bumpCount (k : String) :
    ∀ st : List (String × TopicData),
      (bumpCount st k).map Prod.fst =
        if k ∈ st.map Prod.fst then st.map Prod.fst else st.map Prod.fst ++ [k] := by
  intro st
  induction st with
  | nil => simp [bumpCount]
  | cons hd t ih =>
    by_cases h : hd.1 = k
    · simp [bumpCount, h]
    · have h2 : ¬ k = hd.1 := fun hh => h hh.symm
      simp only [bumpCount, h, ite_false, List.map_cons, ih, List.mem_cons]
      by_cases hm : k ∈ t.map Prod.fst
      · simp [hm, h2]
      · simp [hm, h2]

theorem keys_bumpSent (key k : String) :
    ∀ st : List (String × TopicData),
      (bumpSent key st k).map Prod.fst =
        if k ∈ st.map Prod.fst then st.map Prod.fst else st.map Prod.fst ++ [k] := by
  intro st
  induction st with
  | nil => simp [bumpSent]
  | cons hd t ih =>
    by_cases h : hd.1 = k
    · simp [bumpSent, h]
    · have h2 : ¬ k = hd.1 := fun hh => h hh.symm
      simp only [bumpSent, h, ite_false, List.map_cons, ih, List.mem_cons]
      by_cases hm : k ∈ t.map Prod.fst
      · simp [hm, h2]
      · simp [hm, h2]

theorem nodup_keys_bumpCount (st : List (String × TopicData)) (k : String)
    (h : (st.map Prod.fst).Nodup) : ((bumpCount st k).map Prod.fst).Nodup := by
  rw [keys_bumpCount]
  split_ifs with hm
  · exact h
  · exact List.nodup_append.2 ⟨h, List.nodup_singleton k, by simp [hm]⟩

theorem nodup_keys_bumpSent (key : String) (st : List (String × TopicData)) (k : String)
    (h : (st.map Prod.fst).Nodup) : ((bumpSent key st k).map Prod.fst).Nodup := by
  rw [keys_bumpSent]
  split_ifs with hm
  · exact h
  · exact List.nodup_append.2 ⟨h, List.nodup_singleton k, by simp [hm]⟩

theorem nodup_keys_procKeywords (sv : Value) :
    ∀ (ks : List String) (st : List (String × TopicData)),
      (st.map Prod.fst).Nodup → ((procKeywords sv st ks).map Prod.fst).Nodup := by
  intro ks
  induction ks with
  | nil => intro st h; exact h
  | cons k rest ih =>
    intro st h
    simp only [procKeywords]
    cases sentKey sv with
    | none => exact nodup_keys_bumpCount st k h
    | some key =>
      exact ih _ (nodup_keys_bumpSent key _ k (nodup_keys_bumpCount st k h))

theorem nodup_keys_buildTopics (tokenize : String → List String) (stop : List String)
    (rows : List (Value × Value)) :
    ((buildTopics tokenize stop rows).map Prod.fst).Nodup := by
  unfold buildTopics
  have h : ∀ (rs : List (Value × Value)) (st : List (String × TopicData)),
      (st.map Prod.fst).Nodup →
      ((rs.foldl (fun st p =>
        match p.1 with
        | .vNA => st
        | v => procKeywords p.2 st ((tokenize (lowerStr (pyStr v))).filter (keepTopicWord stop)))
        st).map Prod.fst).Nodup := by
    intro rs
    induction rs with
    | nil => intro st h; exact h
    | cons r t ih =>
      intro st h
      simp only [List.foldl_cons]
      cases r1 : r.1 <;>
        first
        | exact ih _ h
        | exact ih _ (nodup_keys_procKeywords r.2 _ st h)
  exact h _ [] (by simp)

theorem pair_sublist_or (x y : α) :
    ∀ l : List α, x ∈ l → y ∈ l → x ≠ y → List.Sublist [x, y] l ∨ List.Sublist [y, x] l := by
  intro l
  induction l with
  | nil => intro hx; cases hx
  | cons a t ih =>
    intro hx hy hne
    rcases List.mem_cons.1 hx with rfl | hx2
    · have hy2 : y ∈ t := by
        rcases List.mem_cons.1 hy with rfl | h
        · exact absurd rfl hne
        · exact h
      exact Or.inl (List.Sublist.cons₂ x (List.singleton_sublist.2 hy2))
    · rcases List.mem_cons.1 hy with rfl | hy2
      · exact Or.inr (List.Sublist.cons₂ y (List.singleton_sublist.2 hx2))
      · rcases ih hx2 hy2 hne with h | h
        · exact Or.inl (h.cons a)
        · exact Or.inr (h.cons a)

theorem pair_sublist_antisymm (x y : α) :
    ∀ l : List α, l.Nodup → List.Sublist [x, y] l → List.Sublist [y, x] l → x = y := by
  intro l
  induction l with
  | nil => intro _ h1; cases h1
  | cons a t ih =>
    intro hnd h1 h2
    have ha : a ∉ t := (List.nodup_cons.1 hnd).1
    have hndt : t.Nodup := (List.nodup_cons.1 hnd).2
    cases h1 with
    | cons _ h1t =>
      cases h2 with
      | cons _ h2t => exact ih hndt h1t h2t
      | cons₂ h2t =>
        exact absurd (h1t.subset (List.mem_cons_of_mem _ (List.mem_cons_self _ _)))
          (fun hh => ha hh)
    | cons₂ h1t =>
      cases h2 with
      | cons _ h2t =>
        exact absurd (h2t.subset (List.mem_cons_of_mem _ (List.mem_cons_self _ _)))
          (fun hh => ha hh)
      | cons₂ h2t => rfl

theorem insertionSort_pairwise_stable (T : List (String × TopicData))
    (hnd : (T.map Prod.fst).Nodup) :
    List.Pairwise (fun x y : String × TopicData =>
      y.2.count < x.2.count ∨ (x.2.count = y.2.count ∧ List.Sublist [x, y] T))
      (T.insertionSort topicGe) := by
  have hndT : T.Nodup := List.Nodup.of_map Prod.fst hnd
  have hperm := List.perm_insertionSort topicGe T
  have hndS : (T.insertionSort topicGe).Nodup := hperm.nodup_iff.2 hndT
  have hsorted := List.sorted_insertionSort topicGe T
  rw [List.pairwise_iff_forall_sublist]
  intro x y hxy
  have hge : topicGe x y := List.pairwise_iff_forall_sublist.1 hsorted hxy
  rcases Nat.lt_or_ge y.2.count x.2.count with hlt | hge2
  · exact Or.inl hlt
  · have heq : x.2.count = y.2.count := Nat.le_antisymm hge2 hge
    refine Or.inr ⟨heq, ?_⟩
    have hne : x ≠ y := List.pairwise_iff_forall_sublist.1 hndS hxy
    have hx : x ∈ T := hperm.subset (hxy.subset (List.mem_cons_self _ _))
    have hy : y ∈ T :=
      hperm.subset (hxy.subset (List.mem_cons_of_mem _ (List.mem_cons_self _ _)))
    rcases pair_sublist_or x y T hx hy hne with h | h
    · exact h
    · exfalso
      have hyx : List.Sublist [y, x] (T.insertionSort topicGe) :=
        List.pair_sublist_insertionSort (le_of_eq heq) h
      exact hne (pair_sublist_antisymm x y _ hndS hxy hyx)

/-- C8: the ranked-topic output is deterministic (it is a pure function of
its inputs) and its order is fully characterized: at most `top_n` entries,
mention counts non-increasing, and any two entries with equal counts appear
in the order in which their keywords were first seen while scanning the
rows — the stable descending sort of the first-seen association list. -/
theorem c8_topic_ranking_stable (tokenize : String → List String) (stop : List String)
    (df : DF) (top_n : ℕ) (c : String) (hc : findTextCol textSyn5 df = some c) :
    (get_trending_topics tokenize stop df top_n).length ≤ top_n ∧
    List.Pairwise (fun a b : TopicEntry =>
      b.mentions < a.mentions ∨
      (a.mentions = b.mentions ∧
        List.Sublist [a.topic, b.topic]
          ((buildTopics tokenize stop
            ((getColD df c).zip (sentColOrDefault df (getColD df c).length))).map Prod.fst)))
      (get_trending_topics tokenize stop df top_n) := by
  unfold get_trending_topics
  rw [hc]
  dsimp only
  set T := buildTopics tokenize stop
    ((getColD df c).zip (sentColOrDefault df (getColD df c).length)) with hT
  constructor
  · rw [List.length_map]
    refine le_trans (List.length_filter_le _ _) ?_
    rw [List.length_take]
    exact min_le_left _ _
  · have hmain := insertionSort_pairwise_stable T
      (by rw [hT]; exact nodup_keys_buildTopics tokenize stop _)
    have htake := List.Pairwise.sublist (List.take_sublist top_n _) hmain
    refine List.Pairwise.map _ ?_ (List.Pairwise.sublist (List.filter_sublist _) htake)
    intro a b hab
    rcases hab with hlt | ⟨heq, hsub⟩
    · exact Or.inl hlt
    · exact Or.inr ⟨heq, by simpa [topicEntryOf] using List.Sublist.map Prod.fst hsub⟩

/-- C8 witness: the theorem applied to a concrete table with a `comment`
text column. -/
theorem c8_topic_ranking_stable_witness :
    (get_trending_topics tokWhole [] dfW8 10).length ≤ 10 ∧
    List.Pairwise (fun a b : TopicEntry =>
      b.mentions < a.mentions ∨
      (a.mentions = b.mentions ∧
        List.Sublist [a.topic, b.topic]
          ((buildTopics tokWhole []
            ((getColD dfW8 "comment").zip
              (sentColOrDefault dfW8 (getColD dfW8 "comment").length))).map Prod.fst)))
      (get_trending_topics tokWhole [] dfW8 10) :=
  c8_topic_ranking_stable tokWhole [] dfW8 10 "comment" (by decide)

theorem foldl_max_first (key : String → ℚ) :
    ∀ (xs : List String) (x : String),
      ∃ pre post,
        x :: xs = pre ++ (xs.foldl (pyMaxStep key) x) :: post ∧
        (∀ y ∈ pre, key y < key (xs.foldl (pyMaxStep key) x)) ∧
        (∀ y ∈ x :: xs, key y ≤ key (xs.foldl (pyMaxStep key) x)) := by
  intro xs
  induction xs with
  | nil =>
    intro x
    refine ⟨[], [], rfl, by simp, ?_⟩
    intro z hz
    rcases List.mem_cons.1 hz with rfl | h
    · exact le_refl _
    · cases h
  | cons y t ih =>
    intro x
    simp only [List.foldl_cons]
    by_cases hk : key y > key x
    · rw [show pyMaxStep key x y = y from if_pos hk]
      obtain ⟨pre', post', hd, hpre, hall⟩ := ih y
      refine ⟨x :: pre', post', ?_, ?_, ?_⟩
      · rw [List.cons_append, ← hd]
      · intro z hz
        rcases List.mem_cons.1 hz with rfl | hz2
        · exact lt_of_lt_of_le hk (hall y (List.mem_cons_self _ _))
        · exact hpre z hz2
      · intro z hz
        rcases List.mem_cons.1 hz with rfl | hz2
        · exact le_of_lt (lt_of_lt_of_le hk (hall y (List.mem_cons_self _ _)))
        · exact hall z hz2
    · rw [show pyMaxStep key x y = x from if_neg hk]
      obtain ⟨pre', post', hd, hpre, hall⟩ := ih x
      cases pre' with
      | nil =>
        simp only [List.nil_append] at hd
        injection hd with h1 h2
        refine ⟨[], y :: post', ?_, by simp, ?_⟩
        · rw [List.nil_append, ← h1, h2]
        · intro z hz
          rcases List.mem_cons.1 hz with rfl | hz2
          · rw [← h1]
          · rcases List.mem_cons.1 hz2 with rfl | hz3
            · rw [← h1]
              exact le_of_not_lt hk
            · exact hall z (List.mem_cons_of_mem _ hz3)
      | cons p pre'' =>
        injection hd with h1 h2
        subst h1
        refine ⟨x :: y :: pre'', post', ?_, ?_, ?_⟩
        · exact congrArg (fun l => x :: y :: l) h2
        · intro z hz
          have hxm : key x < key (t.foldl (pyMaxStep key) x) :=
            hpre x (List.mem_cons_self _ _)
          rcases List.mem_cons.1 hz with rfl | hz2
          · exact hxm
          · rcases List.mem_cons.1 hz2 with rfl | hz3
            · exact lt_of_le_of_lt (le_of_not_lt hk) hxm
            · exact hpre z (List.mem_cons_of_mem _ hz3)
        · intro z hz
          rcases List.mem_cons.1 hz with rfl | hz2
          · exact hall z (List.mem_cons_self _ _)
          · rcases List.mem_cons.1 hz2 with rfl | hz3
            · exact le_trans (le_of_not_lt hk) (hall x (List.mem_cons_self _ _))
            · exact hall z (List.mem_cons_of_mem _ hz3)

/-- C10: when no column name matches a text synonym and the table has
string-typed columns, the classifier's fallback deterministically picks the
string column with the greatest mean string length, and on ties the one
appearing first in column order: the chosen column is preceded only by
strictly shorter-mean columns and bounds every string column's mean from
above. -/
theorem c10_fallback_first_longest (df : DF) (x : String) (xs : List String)
    (hnone : findTextCol textSyn6 df = none)
    (hcols : strCols df = x :: xs) :
    ∃ m pre post, resolveTextCol df = some m ∧
      strCols df = pre ++ m :: post ∧
      (∀ y ∈ pre, meanStrLen df y < meanStrLen df m) ∧
      (∀ y ∈ strCols df, meanStrLen df y ≤ meanStrLen df m) := by
  obtain ⟨pre, post, hd, hpre, hall⟩ := foldl_max_first (meanStrLen df) xs x
  refine ⟨xs.foldl (pyMaxStep (meanStrLen df)) x, pre, post, ?_, ?_, hpre, ?_⟩
  · unfold resolveTextCol
    rw [hnone, hcols]
    rfl
  · rw [hcols, hd]
  · rw [hcols]
    exact hall

/-- C10 witness: the fallback characterization applied to a table whose
string columns are `u` (mean length 2) and `v` (mean length 3). -/
theorem c10_fallback_first_longest_witness :
    ∃ m pre post, resolveTextCol dfW10 = some m ∧
      strCols dfW10 = pre ++ m :: post ∧
      (∀ y ∈ pre, meanStrLen dfW10 y < meanStrLen dfW10 m) ∧
      (∀ y ∈ strCols dfW10, meanStrLen dfW10 y ≤ meanStrLen dfW10 m) :=
  c10_fallback_first_longest dfW10 "u" ["v"] (by decide) (by decide)
